import Mathlib

/-!
Verification of the Oasis process-mining backend.

This file gives a shallow embedding of the locally-authored logic of the
repository — the footprint-matrix construction (`utils/helpers.py` and the
nested copy inside `conformance_log_log` of `api.py`), the footprint
difference count, the footprint conformance score, the in-memory
log/model/ocel list management of `routers/data.py` and `api.py` (upload,
list, delete), the conformance-metrics aggregation shared by the
`discover_*` endpoints and `conformance_log_model`, and the trace-variant
aggregation of `get_log_insights` — and proves the behavioural properties
claimed for them.

Python values are modelled as follows: floats as `ℚ`, Python sets as lists
holding their elements in iteration order (with set-level operations going
through `List.toFinset`), dictionaries either as structures (when the code
only ever builds one shape) or as association lists (when key presence
matters), and raised-and-caught exceptions as explicit `Option`/branching.
-/

namespace Oasis

/-! ### Python-style string ordering and stable sorting

Python's `sorted` compares strings lexicographically by code point and is
a stable sort.  `String.decidableLE` does not reduce in the kernel, so the
code-point comparison is spelled out on the character lists.
-/

/-- Lexicographic comparison of character lists by code point. -/
def charListLe : List Char → List Char → Bool
  | [], _ => true
  | _ :: _, [] => false
  | a :: as, b :: bs =>
    if a.toNat < b.toNat then true
    else if b.toNat < a.toNat then false
    else charListLe as bs

/-- Python string comparison `a <= b`: lexicographic by code point. -/
def pyStrLe (a b : String) : Bool := charListLe a.data b.data

/-- Stable insertion of an element into a sorted list (`le` decides "may
come before"). -/
def insSorted (le : α → α → Bool) (a : α) : List α → List α
  | [] => [a]
  | b :: bs => if le a b then a :: b :: bs else b :: insSorted le a bs

/-- Stable sort, modelling Python `sorted`/`list.sort`. -/
def pySort (le : α → α → Bool) : List α → List α
  | [] => []
  | a :: as => insSorted le a (pySort le as)

theorem insSorted_perm (le : α → α → Bool) (a : α) (l : List α) :
    List.Perm (insSorted le a l) (a :: l) := by
  induction l with
  | nil => simp [insSorted]
  | cons b bs ih =>
    simp only [insSorted]
    by_cases h : le a b = true
    · rw [if_pos h]
    · rw [if_neg h]
      exact (ih.cons b).trans (List.Perm.swap a b bs)

theorem pySort_perm (le : α → α → Bool) (l : List α) :
    List.Perm (pySort le l) l := by
  induction l with
  | nil => simp [pySort]
  | cons a as ih => exact (insSorted_perm le a (pySort le as)).trans (ih.cons a)

theorem mem_pySort (le : α → α → Bool) {a : α} {l : List α} :
    a ∈ pySort le l ↔ a ∈ l :=
  (pySort_perm le l).mem_iff

theorem length_pySort (le : α → α → Bool) (l : List α) :
    (pySort le l).length = l.length :=
  (pySort_perm le l).length_eq

theorem insSorted_pairwise (le : α → α → Bool)
    (htr : ∀ x y z, le x y = true → le y z = true → le x z = true)
    (htot : ∀ x y, le x y = true ∨ le y x = true)
    (a : α) (l : List α) (h : l.Pairwise (fun x y => le x y = true)) :
    (insSorted le a l).Pairwise (fun x y => le x y = true) := by
  induction l with
  | nil => simp [insSorted]
  | cons b bs ih =>
    rcases List.pairwise_cons.1 h with ⟨hb, hbs⟩
    simp only [insSorted]
    by_cases hab : le a b = true
    · rw [if_pos hab]
      refine List.pairwise_cons.2 ⟨?_, h⟩
      intro x hx
      rcases List.mem_cons.1 hx with rfl | hx
      · exact hab
      · exact htr a b x hab (hb x hx)
    · rw [if_neg hab]
      have hba : le b a = true := (htot a b).resolve_left hab
      refine List.pairwise_cons.2 ⟨?_, ih hbs⟩
      intro x hx
      rcases List.mem_cons.1 ((insSorted_perm le a bs).mem_iff.1 hx) with rfl | hx
      · exact hba
      · exact hb x hx

theorem pySort_pairwise (le : α → α → Bool)
    (htr : ∀ x y z, le x y = true → le y z = true → le x z = true)
    (htot : ∀ x y, le x y = true ∨ le y x = true)
    (l : List α) :
    (pySort le l).Pairwise (fun x y => le x y = true) := by
  induction l with
  | nil => simp [pySort]
  | cons a as ih => exact insSorted_pairwise le htr htot a _ ih

/-- `charListLe` cons case restated arithmetically. -/
theorem charListLe_cons {a b : Char} {as bs : List Char} :
    charListLe (a :: as) (b :: bs) = true ↔
      a.toNat < b.toNat ∨ (a.toNat = b.toNat ∧ charListLe as bs = true) := by
  by_cases h1 : a.toNat < b.toNat
  · simp [charListLe, h1]
  · by_cases h2 : b.toNat < a.toNat
    · simp [charListLe, h1, h2]
      omega
    · have : a.toNat = b.toNat := by omega
      simp [charListLe, h1, h2, this]

theorem charListLe_total (as bs : List Char) :
    charListLe as bs = true ∨ charListLe bs as = true := by
  induction as generalizing bs with
  | nil => left; rfl
  | cons a as ih =>
    cases bs with
    | nil => right; rfl
    | cons b bs =>
      rcases Nat.lt_trichotomy a.toNat b.toNat with h | h | h
      · left; exact charListLe_cons.2 (Or.inl h)
      · rcases ih bs with h1 | h1
        · left; exact charListLe_cons.2 (Or.inr ⟨h, h1⟩)
        · right; exact charListLe_cons.2 (Or.inr ⟨h.symm, h1⟩)
      · right; exact charListLe_cons.2 (Or.inl h)

theorem charListLe_trans (as bs cs : List Char)
    (h1 : charListLe as bs = true) (h2 : charListLe bs cs = true) :
    charListLe as cs = true := by
  induction as generalizing bs cs with
  | nil => rfl
  | cons a as ih =>
    cases bs with
    | nil => cases h1
    | cons b bs =>
      cases cs with
      | nil => cases h2
      | cons c cs =>
        rcases charListLe_cons.1 h1 with hab | ⟨hab, hab'⟩ <;>
          rcases charListLe_cons.1 h2 with hbc | ⟨hbc, hbc'⟩
        · exact charListLe_cons.2 (Or.inl (hab.trans hbc))
        · exact charListLe_cons.2 (Or.inl (hbc ▸ hab))
        · exact charListLe_cons.2 (Or.inl (hab ▸ hbc))
        · exact charListLe_cons.2 (Or.inr ⟨hab.trans hbc, ih bs cs hab' hbc'⟩)

theorem pyStrLe_total (a b : String) : pyStrLe a b = true ∨ pyStrLe b a = true :=
  charListLe_total a.data b.data

theorem pyStrLe_trans (a b c : String)
    (h1 : pyStrLe a b = true) (h2 : pyStrLe b c = true) : pyStrLe a c = true :=
  charListLe_trans a.data b.data c.data h1 h2

/-! ### Footprints and the footprint matrix (`utils/helpers.py`)

A pm4py footprint dictionary carries an `'activities'` set and
`'sequence'`/`'parallel'` relation sets of activity pairs.  Sets are
modelled as the list of their elements in iteration order.
-/

/-- A footprint dictionary: `'activities'`, `'sequence'`, `'parallel'`. -/
structure Footprint where
  activities : List String
  sequence : List (String × String)
  parallel : List (String × String)
deriving DecidableEq

/-- Result shape of `footprint_to_matrix`:
`{'activities': ..., 'matrix': ...}`. -/
structure FootprintMatrix where
  activities : List String
  matrix : List (List String)
deriving DecidableEq

/-- `sorted(list(fp.get('activities', set())))`: the activity set, sorted. -/
def sortedActivities (fp : Footprint) : List String :=
  pySort pyStrLe fp.activities.dedup

/-- `act_to_idx`: position of an activity in the sorted activity list
(`None` when absent, mirroring `a in act_to_idx` being false). -/
def idxOf (a : String) : List String → Option Nat
  | [] => none
  | b :: bs => if b = a then some 0 else (idxOf a bs).map (· + 1)

/-- A mutable `n × n` matrix of strings, represented by its cell
contents; the in-place update `matrix[i][j] = v`. -/
def updCell (c : Nat → Nat → String) (i j : Nat) (v : String) :
    Nat → Nat → String :=
  fun x y => if x = i ∧ y = j then v else c x y

/-- One iteration of a relation-filling loop of `footprint_to_matrix`:
`if a1 in act_to_idx and a2 in act_to_idx: matrix[...][...] = sym`. -/
def fillStep (sym : String) (idxf : String → Option Nat)
    (c : Nat → Nat → String) (p : String × String) : Nat → Nat → String :=
  match idxf p.1, idxf p.2 with
  | some i, some j => updCell c i j sym
  | _, _ => c

/-- A relation-filling loop of `footprint_to_matrix`: for each pair,
when both components are activities, write `sym` into their cell. -/
def fillCells (sym : String) (idxf : String → Option Nat)
    (ps : List (String × String)) (c : Nat → Nat → String) :
    Nat → Nat → String :=
  ps.foldl (fun acc p => fillStep sym idxf acc p) c

/-- Materialise the cell contents as the list-of-rows the function
returns. -/
def matrixOf (n : Nat) (c : Nat → Nat → String) : List (List String) :=
  (List.range n).map fun i => (List.range n).map fun j => c i j

/-- `footprint_to_matrix` from `utils/helpers.py`: sorted activities, an
`n × n` matrix initialised to `''`, `'->'` written for sequence pairs and
then `'||'` for parallel pairs. -/
def footprint_to_matrix (fp : Footprint) : FootprintMatrix :=
  let activities := sortedActivities fp
  let n := activities.length
  let idxf := fun a => idxOf a activities
  let c0 : Nat → Nat → String := fun _ _ => ""
  let c1 := fillCells "->" idxf fp.sequence c0
  let c2 := fillCells "||" idxf fp.parallel c1
  { activities := activities, matrix := matrixOf n c2 }

/-- The nested `footprint_to_matrix` defined inside `conformance_log_log`
in `api.py`.  Its `return` statement is indented into the body of the
parallel-relation `for` loop, so the function returns during the first
iteration of that loop — after writing at most the first parallel pair —
and falls off the end (returning Python `None`, here `none`) whenever the
parallel set is empty. -/
def api_footprint_to_matrix (fp : Footprint) : Option FootprintMatrix :=
  let activities := sortedActivities fp
  let n := activities.length
  let idxf := fun a => idxOf a activities
  let c0 : Nat → Nat → String := fun _ _ => ""
  let c1 := fillCells "->" idxf fp.sequence c0
  match fp.parallel with
  | [] => none
  | p :: _ =>
    let c2 := fillStep "||" idxf c1 p
    some { activities := activities, matrix := matrixOf n c2 }

/-- `count_footprint_differences` from `utils/helpers.py` (the identical
nested `count_differences` of `api.py`'s `conformance_log_log`): the
symmetric set difference of the sequence sets plus that of the parallel
sets. -/
def count_footprint_differences (fp1 fp2 : Footprint) : Nat :=
  ((fp1.sequence.toFinset \ fp2.sequence.toFinset) ∪
   (fp2.sequence.toFinset \ fp1.sequence.toFinset)).card +
  ((fp1.parallel.toFinset \ fp2.parallel.toFinset) ∪
   (fp2.parallel.toFinset \ fp1.parallel.toFinset)).card

theorem fillStep_apply (sym : String) (idxf : String → Option Nat)
    (c : Nat → Nat → String) (p : String × String) (x y : Nat) :
    fillStep sym idxf c p x y =
      if idxf p.1 = some x ∧ idxf p.2 = some y then sym else c x y := by
  rcases h1 : idxf p.1 with _ | i <;> rcases h2 : idxf p.2 with _ | j <;>
    simp only [fillStep, h1, h2]
  · simp
  · simp
  · simp
  · rw [updCell]
    refine if_congr ⟨fun ⟨hx, hy⟩ => ?_, fun ⟨hx, hy⟩ => ?_⟩ rfl rfl
    · exact ⟨by rw [hx], by rw [hy]⟩
    · exact ⟨(Option.some.injEq _ _ ▸ hx).symm, (Option.some.injEq _ _ ▸ hy).symm⟩

theorem fillCells_apply (sym : String) (idxf : String → Option Nat)
    (ps : List (String × String)) (c : Nat → Nat → String) (x y : Nat) :
    fillCells sym idxf ps c x y =
      if ∃ p ∈ ps, idxf p.1 = some x ∧ idxf p.2 = some y then sym
      else c x y := by
  induction ps generalizing c with
  | nil => simp [fillCells]
  | cons p ps ih =>
    show fillCells sym idxf ps (fillStep sym idxf c p) x y = _
    rw [ih]
    by_cases hps : ∃ q ∈ ps, idxf q.1 = some x ∧ idxf q.2 = some y
    · rw [if_pos hps, if_pos]
      obtain ⟨q, hq, hq2⟩ := hps
      exact ⟨q, List.mem_cons_of_mem p hq, hq2⟩
    · rw [if_neg hps, fillStep_apply]
      by_cases hp : idxf p.1 = some x ∧ idxf p.2 = some y
      · rw [if_pos hp, if_pos ⟨p, List.mem_cons_self p ps, hp⟩]
      · rw [if_neg hp, if_neg]
        rintro ⟨q, hq, hq2⟩
        rcases List.mem_cons.1 hq with rfl | hq
        · exact hp hq2
        · exact hps ⟨q, hq, hq2⟩

theorem idxOf_getElem? {a : String} {l : List String} {i : Nat}
    (h : idxOf a l = some i) : l[i]? = some a := by
  induction l generalizing i with
  | nil => cases h
  | cons b bs ih =>
    by_cases hb : b = a
    · simp only [idxOf, if_pos hb, Option.some.injEq] at h
      subst hb
      simp [← h]
    · simp only [idxOf, if_neg hb, Option.map_eq_some'] at h
      obtain ⟨j, hj, rfl⟩ := h
      simpa using ih hj

theorem getElem?_idxOf {a : String} {l : List String} (hnd : l.Nodup)
    {i : Nat} (h : l[i]? = some a) : idxOf a l = some i := by
  induction l generalizing i with
  | nil => simp at h
  | cons b bs ih =>
    rcases List.nodup_cons.1 hnd with ⟨hb, hnd'⟩
    cases i with
    | zero =>
      simp only [List.getElem?_cons_zero, Option.some.injEq] at h
      simp [idxOf, h]
    | succ j =>
      simp only [List.getElem?_cons_succ] at h
      have hba : b ≠ a := by
        rintro rfl
        exact hb (List.getElem?_mem h)
      simp [idxOf, hba, ih hnd' h]

theorem sortedActivities_nodup (fp : Footprint) :
    (sortedActivities fp).Nodup :=
  ((pySort_perm pyStrLe fp.activities.dedup).nodup_iff).2 (List.nodup_dedup _)

theorem mem_sortedActivities {a : String} {fp : Footprint} :
    a ∈ sortedActivities fp ↔ a ∈ fp.activities :=
  (mem_pySort pyStrLe).trans (List.mem_dedup)

theorem sortedActivities_sorted (fp : Footprint) :
    (sortedActivities fp).Pairwise (fun x y => pyStrLe x y = true) :=
  pySort_pairwise pyStrLe pyStrLe_trans pyStrLe_total _

theorem matrixOf_getD {n : Nat} (c : Nat → Nat → String) {i j : Nat}
    (hi : i < n) (hj : j < n) :
    ((matrixOf n c).getD i []).getD j "" = c i j := by
  simp [matrixOf, List.getD_eq_getElem?_getD, List.getElem?_map,
    List.getElem?_range, hi, hj]

theorem exists_idx_pair_iff {fp : Footprint} {i j : Nat}
    (hi : i < (sortedActivities fp).length)
    (hj : j < (sortedActivities fp).length)
    (ps : List (String × String)) :
    (∃ p ∈ ps, idxOf p.1 (sortedActivities fp) = some i ∧
               idxOf p.2 (sortedActivities fp) = some j) ↔
      ((sortedActivities fp).getD i "", (sortedActivities fp).getD j "") ∈ ps := by
  set acts := sortedActivities fp with hacts
  constructor
  · rintro ⟨p, hp, h1, h2⟩
    have e1 := idxOf_getElem? h1
    have e2 := idxOf_getElem? h2
    have g1 : acts.getD i "" = p.1 := by
      rw [List.getD_eq_getElem?_getD, e1]; rfl
    have g2 : acts.getD j "" = p.2 := by
      rw [List.getD_eq_getElem?_getD, e2]; rfl
    rw [g1, g2]
    exact hp
  · intro hmem
    refine ⟨(acts.getD i "", acts.getD j ""), hmem, ?_, ?_⟩
    · apply getElem?_idxOf (hacts ▸ sortedActivities_nodup fp)
      show acts[i]? = some (acts.getD i "")
      rw [List.getD_eq_getElem?_getD, List.getElem?_eq_getElem hi]
      rfl
    · apply getElem?_idxOf (hacts ▸ sortedActivities_nodup fp)
      show acts[j]? = some (acts.getD j "")
      rw [List.getD_eq_getElem?_getD, List.getElem?_eq_getElem hj]
      rfl

/-- Pointwise value of the matrix built by `footprint_to_matrix`. -/
theorem footprint_to_matrix_cell (fp : Footprint) {i j : Nat}
    (hi : i < (sortedActivities fp).length)
    (hj : j < (sortedActivities fp).length) :
    (((footprint_to_matrix fp).matrix.getD i []).getD j "") =
      (if ((sortedActivities fp).getD i "", (sortedActivities fp).getD j "")
            ∈ fp.parallel then "||"
       else if ((sortedActivities fp).getD i "", (sortedActivities fp).getD j "")
            ∈ fp.sequence then "->"
       else "") := by
  show ((matrixOf _ _).getD i []).getD j "" = _
  rw [matrixOf_getD _ hi hj, fillCells_apply, fillCells_apply]
  rw [if_congr (exists_idx_pair_iff hi hj fp.parallel) rfl
        (if_congr (exists_idx_pair_iff hi hj fp.sequence) rfl rfl)]

/-- The footprint-conformance score computed identically in
`conformance_log_log` and `conformance_model_model`
(`routers/conformance.py`): `1 - diff / max(n1, n2)^2` when there are
activities, `0.0` otherwise. -/
def footprint_conformance (fp1 fp2 : Footprint) : ℚ :=
  let n := max (sortedActivities fp1).length (sortedActivities fp2).length
  let total := n * n
  if 0 < total then
    1 - (count_footprint_differences fp1 fp2 : ℚ) / (total : ℚ)
  else 0

/-! ### JSON responses and the in-memory state (`models/state.py`,
`routers/data.py`, the duplicated endpoints of `api.py`)

Endpoint return dictionaries and metadata dictionaries are modelled as
association lists of string keys, so "the response contains a key" is a
statement about the embedded value.
-/

/-- Values stored in a metadata dictionary. -/
inductive MVal where
  | s (v : String)
  | n (v : Nat)
  | strList (v : List String)
deriving DecidableEq

/-- A metadata dictionary (`{"filename": ..., "uploaded_at": ..., ...}`). -/
abbrev Metadata := List (String × MVal)

/-- Values in an endpoint response dictionary.  `payload` stands for
opaque library output (SVG text, diagnostics lists) whose contents no
claim touches. -/
inductive RVal where
  | s (v : String)
  | q (v : ℚ)
  | n (v : Nat)
  | strList (v : List String)
  | meta (v : Metadata)
  | metaList (v : List Metadata)
  | fpm (v : FootprintMatrix)
  | payload (tag : Nat)
deriving DecidableEq

/-- An endpoint JSON response. -/
abbrev Response := List (String × RVal)

/-- An event-log row: its case identifier and activity name (the
`case:concept:name` and `concept:name` columns). -/
structure EventRow where
  caseId : String
  activity : String
deriving DecidableEq

/-- The parsed event log handed back by `pm4py.read_xes` /
`convert_to_event_log`: its rows, its column list, and whether the
`start_timestamp` column (when present) equals `time:timestamp` —
the comparison `event_log['start_timestamp'].equals(event_log['time:timestamp'])`
made by `upload_log`. -/
structure EventLog where
  rows : List EventRow
  columns : List String
  startEqTime : Bool
deriving DecidableEq, Inhabited

/-- `len(event_log)`. -/
def numEvents (log : EventLog) : Nat := log.rows.length

/-- `len(event_log['case:concept:name'].unique())`. -/
def numCases (log : EventLog) : Nat :=
  (log.rows.map (·.caseId)).dedup.length

/-- `len(event_log['concept:name'].unique())`. -/
def numActivities (log : EventLog) : Nat :=
  (log.rows.map (·.activity)).dedup.length

/-- The column filter of `upload_log` in `routers/data.py`: keep every
column except a `start_timestamp` that pm4py added (present alongside
`time:timestamp` and equal to it). -/
def originalColumns (log : EventLog) : List String :=
  log.columns.filter fun col =>
    !(col == "start_timestamp" && log.columns.contains "time:timestamp"
      && log.startEqTime)

/-- One element of the `state.logs` list:
`{"metadata": ..., "log_object": ...}`. -/
structure LogEntry where
  metadata : Metadata
  logObject : EventLog
deriving DecidableEq, Inhabited

/-- One element of the `state.models` list:
`{"metadata": ..., "model_object": ...}`.  The Petri-net/BPMN object is
opaque and carried as a tag. -/
structure ModelEntry where
  metadata : Metadata
  modelObject : Nat
deriving DecidableEq, Inhabited

/-- One element of the `state.ocels` list. -/
structure OcelEntry where
  metadata : Metadata
  ocelObject : Nat
deriving DecidableEq

/-- A value stored under a key of an entry dictionary. -/
inductive EntryVal where
  | meta (m : Metadata)
  | logObj (l : EventLog)
  | modelObj (o : Nat)
deriving DecidableEq

/-- Key lookup on a model-entry dictionary, which has exactly the keys
`"metadata"` and `"model_object"` (as built by `upload_model`); any other
key raises `KeyError`, modelled as `none`. -/
def ModelEntry.dictGet (e : ModelEntry) (key : String) : Option EntryVal :=
  if key = "metadata" then some (.meta e.metadata)
  else if key = "model_object" then some (.modelObj e.modelObject)
  else none

/-- Python `str()` of a metadata value, as interpolated into f-strings.
Only the `.s` branch is ever exercised by the embedded endpoints. -/
def mvalText : MVal → String
  | .s v => v
  | .n v => toString v
  | .strList v => String.intercalate ", " v

/-- Python `str()` of an entry value interpolated into an f-string.  The
only call site is the dead `success` branch of `delete_model`. -/
def entryValText : EntryVal → String
  | .meta _ => "metadata"
  | .logObj _ => "log"
  | .modelObj o => toString o

/-- `str(e)` for a caught `KeyError(k)`; Python renders the missing key
(quoted — the quoting is dropped here). -/
def keyErrorText (k : String) : String := k

/-- `GET /api/logs`: metadata of every uploaded log, a count, and a
`status` — and no other key. -/
def get_logs (logs : List LogEntry) : Response :=
  [("logs", .metaList (logs.map (·.metadata))),
   ("count", .n logs.length),
   ("status", .s "success")]

/-- `GET /api/models`. -/
def get_models (models : List ModelEntry) : Response :=
  [("models", .metaList (models.map (·.metadata))),
   ("count", .n models.length),
   ("status", .s "success")]

/-- `GET /api/ocels`. -/
def get_ocels (ocels : List OcelEntry) : Response :=
  [("ocels", .metaList (ocels.map (·.metadata))),
   ("count", .n ocels.length),
   ("status", .s "success")]

/-- `DELETE /api/delete_log/{index}` (`routers/data.py` and `api.py`,
identical): pop the entry when the index is in range and report its
filename, else report an invalid index; a `KeyError` while building the
success message would be caught by the surrounding `except` — after the
`pop` already happened. -/
def delete_log (logs : List LogEntry) (index : Int) :
    List LogEntry × Response :=
  if 0 ≤ index ∧ index < (logs.length : Int) then
    let deleted := logs.getD index.toNat default
    let rest := logs.eraseIdx index.toNat
    match deleted.metadata.lookup "filename" with
    | some v =>
        (rest, [("message", .s ("Successfully deleted log: " ++ mvalText v)),
                ("status", .s "success")])
    | none =>
        (rest, [("message", .s ("Error deleting log: "
                                ++ keyErrorText "filename")),
                ("status", .s "error")])
  else
    (logs, [("message", .s ("Invalid index: " ++ toString index
                            ++ ". No log found at this position.")),
            ("status", .s "error")])

/-- `DELETE /api/delete_model/{index}` (`routers/data.py` and `api.py`,
identical): pops the entry, then builds its success message from
`deleted_model['filename']` — a key the entry dictionary does not have
(its keys are `metadata` and `model_object`), so the f-string raises
`KeyError`, the catch-all turns it into a `status: error` response, and
the pop is not rolled back. -/
def delete_model (models : List ModelEntry) (index : Int) :
    List ModelEntry × Response :=
  if 0 ≤ index ∧ index < (models.length : Int) then
    let deleted := models.getD index.toNat default
    let rest := models.eraseIdx index.toNat
    match deleted.dictGet "filename" with
    | some v =>
        (rest, [("message", .s ("Successfully deleted model: "
                                ++ entryValText v)),
                ("status", .s "success")])
    | none =>
        (rest, [("message", .s ("Error deleting model: "
                                ++ keyErrorText "filename")),
                ("status", .s "error")])
  else
    (models, [("message", .s ("Invalid index: " ++ toString index
                              ++ ". No model found at this position.")),
              ("status", .s "error")])

/-- Metadata appended by `upload_log` in `routers/data.py`: filename,
upload time, the three counts, and the filtered original column list. -/
def uploadLogMetadata (filename now : String) (log : EventLog) : Metadata :=
  [("filename", .s filename),
   ("uploaded_at", .s now),
   ("num_events", .n (numEvents log)),
   ("num_cases", .n (numCases log)),
   ("num_activities", .n (numActivities log)),
   ("original_columns", .strList (originalColumns log))]

/-- Metadata appended by the `upload_log` copy in `api.py`: the same
fields except that no `original_columns` entry is built. -/
def apiUploadLogMetadata (filename now : String) (log : EventLog) : Metadata :=
  [("filename", .s filename),
   ("uploaded_at", .s now),
   ("num_events", .n (numEvents log)),
   ("num_cases", .n (numCases log)),
   ("num_activities", .n (numActivities log))]

/-- Success path of `POST /api/upload_log` in `routers/data.py`: the
parsed log is appended to `state.logs` as one new entry, and the response
reports the filename. -/
def upload_log (logs : List LogEntry) (filename now : String)
    (log : EventLog) : List LogEntry × Response :=
  (logs ++ [{ metadata := uploadLogMetadata filename now log,
              logObject := log }],
   [("message", .s ("Event log successfully uploaded and processed: "
                    ++ filename)),
    ("filename", .s filename),
    ("status", .s "success")])

/-- Success path of the `upload_log` copy in `api.py`. -/
def api_upload_log (logs : List LogEntry) (filename now : String)
    (log : EventLog) : List LogEntry × Response :=
  (logs ++ [{ metadata := apiUploadLogMetadata filename now log,
              logObject := log }],
   [("message", .s ("Event log successfully uploaded and processed: "
                    ++ filename)),
    ("filename", .s filename),
    ("status", .s "success")])

/-! ### Conformance-metric aggregation
(`routers/discovery.py`'s `calculate_conformance_metrics`, inlined
identically in the four `discover_*` endpoints of `api.py`, and
`routers/conformance.py`'s `conformance_log_model`)

The library calls are parameters: `tf`/`tp` are the token-based-replay
fitness and precision, and `align` is `some (fitness, precision)` when
`pm4py.fitness_alignments`/`precision_alignments` succeed and `none` when
that `try` block raises (e.g. a non-sound Petri net).
-/

/-- The F1 formula `2*(f*p)/(f+p) if (f+p) > 0 else 0` used for both the
token-based-replay and the alignment metrics. -/
def tbrF1 (f p : ℚ) : ℚ := if 0 < f + p then 2 * (f * p) / (f + p) else 0

/-- `align_fitness_value`: the numeric fitness, or the `"PN not sound"`
string sentinel when alignment raised. -/
def alignFitnessVal (align : Option (ℚ × ℚ)) : RVal :=
  match align with
  | some a => .q a.1
  | none => .s "PN not sound"

/-- `align_precision_value`. -/
def alignPrecisionVal (align : Option (ℚ × ℚ)) : RVal :=
  match align with
  | some a => .q a.2
  | none => .s "PN not sound"

/-- `align_f1`. -/
def alignF1Val (align : Option (ℚ × ℚ)) : RVal :=
  match align with
  | some a => .q (tbrF1 a.1 a.2)
  | none => .s "PN not sound"

/-- `mean_fitness`: the mean of the two fitness values when alignment is
available, else the token-based-replay fitness alone. -/
def meanFitnessVal (tf : ℚ) (align : Option (ℚ × ℚ)) : ℚ :=
  match align with
  | some a => (tf + a.1) / 2
  | none => tf

/-- `mean_precision`. -/
def meanPrecisionVal (tp : ℚ) (align : Option (ℚ × ℚ)) : ℚ :=
  match align with
  | some a => (tp + a.2) / 2
  | none => tp

/-- `calculate_conformance_metrics` from `routers/discovery.py` (the same
dictionary is built inline by `discover_alpha`/`discover_ilp`/
`discover_heuristics`/`discover_inductive` in `api.py`). -/
def calculate_conformance_metrics (tf tp : ℚ) (align : Option (ℚ × ℚ))
    (log_metadata : Metadata) (train_stats test_stats : RVal)
    (num_places num_transitions num_arcs : Nat) : Response :=
  [("log_metadata", .meta log_metadata),
   ("train_stats", train_stats),
   ("test_stats", test_stats),
   ("tbr_fitness", .q tf),
   ("align_fitness", alignFitnessVal align),
   ("tbr_precision", .q tp),
   ("align_precision", alignPrecisionVal align),
   ("tbr_f1", .q (tbrF1 tf tp)),
   ("align_f1", alignF1Val align),
   ("mean_fitness", .q (meanFitnessVal tf align)),
   ("mean_precision", .q (meanPrecisionVal tp align)),
   ("num_places", .n num_places),
   ("num_transitions", .n num_transitions),
   ("num_arcs", .n num_arcs)]

/-- Success response of `POST /api/discover_alpha`:
`{"message": ..., "svg_content": ..., **metrics, "status": "success"}`. -/
def discover_alpha_response (svg : String) (metrics : Response) : Response :=
  ("message", RVal.s "Alpha algorithm discovery completed") ::
  ("svg_content", RVal.s svg) :: metrics ++ [("status", RVal.s "success")]

/-- Success response of `POST /api/discover_ilp`. -/
def discover_ilp_response (svg : String) (metrics : Response) : Response :=
  ("message", RVal.s "ILP algorithm discovery completed") ::
  ("svg_content", RVal.s svg) :: metrics ++ [("status", RVal.s "success")]

/-- Success response of `POST /api/discover_heuristics`. -/
def discover_heuristics_response (svg : String) (metrics : Response) :
    Response :=
  ("message", RVal.s "Heuristics algorithm discovery completed") ::
  ("svg_content", RVal.s svg) :: metrics ++ [("status", RVal.s "success")]

/-- Success response of `POST /api/discover_inductive`. -/
def discover_inductive_response (svg : String) (metrics : Response) :
    Response :=
  ("message", RVal.s "Inductive algorithm discovery completed") ::
  ("svg_content", RVal.s svg) :: metrics ++ [("status", RVal.s "success")]

/-- The footprint-conformance score of `conformance_log_model`, which —
unlike the log-log and model-model variants — counts cells over the model
footprint's activities only. -/
def log_model_footprint_conformance (log_fp model_fp : Footprint) : ℚ :=
  let n := (sortedActivities model_fp).length
  let total := n * n
  if 0 < total then
    1 - (count_footprint_differences log_fp model_fp : ℚ) / (total : ℚ)
  else 0

/-- Success response of `POST /api/conformance_log_model`
(`routers/conformance.py`), with the library outputs (SVG texts,
alignment and token-based-replay diagnostics) as parameters. -/
def conformance_log_model_response (log : EventLog)
    (log_metadata model_metadata : Metadata)
    (num_places num_transitions num_arcs : Nat)
    (log_fp model_fp : Footprint) (tf tp : ℚ) (align : Option (ℚ × ℚ))
    (alignment_data tbr_data : RVal) (model_svg log_svg : String) :
    Response :=
  let simplicity : ℚ :=
    if 0 < num_transitions then
      ((numActivities log : ℚ) / (num_transitions : ℚ)) *
        (1 / (1 + ((num_places : ℚ) + (num_arcs : ℚ)) /
                    ((numEvents log : ℚ) + (numCases log : ℚ))))
    else 0
  [("message", .s "Log-Model conformance checking completed"),
   ("log_metadata", .meta log_metadata),
   ("model_metadata", .meta model_metadata),
   ("num_events", .n (numEvents log)),
   ("num_cases", .n (numCases log)),
   ("num_places", .n num_places),
   ("num_transitions", .n num_transitions),
   ("num_arcs", .n num_arcs),
   ("log_footprint_matrix", .fpm (footprint_to_matrix log_fp)),
   ("model_footprint_matrix", .fpm (footprint_to_matrix model_fp)),
   ("num_different_cells", .n (count_footprint_differences log_fp model_fp)),
   ("footprint_conformance",
      .q (log_model_footprint_conformance log_fp model_fp)),
   ("alignment_data", alignment_data),
   ("tbr_data", tbr_data),
   ("model_svg", .s model_svg),
   ("log_svg", .s log_svg),
   ("tbr_fitness", .q tf),
   ("align_fitness", alignFitnessVal align),
   ("tbr_precision", .q tp),
   ("align_precision", alignPrecisionVal align),
   ("tbr_f1", .q (tbrF1 tf tp)),
   ("align_f1", alignF1Val align),
   ("mean_fitness", .q (meanFitnessVal tf align)),
   ("mean_precision", .q (meanPrecisionVal tp align)),
   ("mean_fitness_combined", .q (meanFitnessVal tf align)),
   ("mean_precision_combined", .q (meanPrecisionVal tp align)),
   ("mean_f1_combined",
      .q (match align with
          | some a => (tbrF1 tf tp + tbrF1 a.1 a.2) / 2
          | none => tbrF1 tf tp)),
   ("simplicity", .q simplicity),
   ("status", .s "success")]

/-! ### Trace-variant aggregation of `get_log_insights`
(`utils/helpers.py`, duplicated in `api.py`)

The event log is abstracted as the list of its cases' activity sequences
(one entry per distinct case id, in first-appearance order), with the
library-supplied case durations (`pm4py.stats.get_all_case_durations`) as
a parallel list of parameters.  `pm4py.get_variants` returns the
dictionary mapping each trace sequence to its number of cases, keys in
first-occurrence order; `variantsOf` models it.
-/

/-- Record a dictionary key on first occurrence. -/
def addNew [DecidableEq α] (acc : List α) (a : α) : List α :=
  if a ∈ acc then acc else acc ++ [a]

/-- The distinct elements of a list in first-occurrence order
(Python dictionary insertion order). -/
def firstOccs [DecidableEq α] (l : List α) : List α := l.foldl addNew []

/-- `pm4py.get_variants`: each distinct trace sequence with the number of
cases exhibiting it. -/
def variantsOf (cases : List (List String)) : List (List String × Nat) :=
  (firstOccs cases).map fun v => (v, cases.count v)

/-- `len(variants)`, reported as `num_trace_variants`. -/
def numTraceVariants (cases : List (List String)) : Nat :=
  (variantsOf cases).length

/-- Python `round(x, 2)` (on exact rationals; ties round half-up here
where binary floats would tie-break to even). -/
def round2 (q : ℚ) : ℚ := (round (q * 100) : ℚ) / 100

/-- `statistics.mean`. -/
def pyMean (l : List ℚ) : ℚ := l.sum / (l.length : ℚ)

/-- Python `min` of a nonempty list (`0` for the never-taken empty case). -/
def pyMin : List ℚ → ℚ
  | [] => 0
  | x :: xs => xs.foldl min x

/-- Python `max` of a nonempty list. -/
def pyMax : List ℚ → ℚ
  | [] => 0
  | x :: xs => xs.foldl max x

/-- `statistics.median`: middle of the sorted values, or the mean of the
two middle values for an even count. -/
def pyMedian (l : List ℚ) : ℚ :=
  let s := pySort (fun a b => decide (a ≤ b)) l
  let n := s.length
  if n % 2 = 1 then s.getD (n / 2) 0
  else (s.getD (n / 2 - 1) 0 + s.getD (n / 2) 0) / 2

/-- `variant_durations`: the case durations of exactly the cases whose
trace equals the variant (`case_durations[i]` is looked up by the
position of the case in first-appearance order). -/
def variantDurations (cases : List (List String)) (durs : List ℚ)
    (v : List String) : List ℚ :=
  (List.range cases.length).filterMap fun i =>
    if cases.getD i [] = v then some (durs.getD i 0) else none

/-- One entry of the `trace_variants` list built by `get_log_insights`. -/
structure TraceVariantRow where
  activities : List String
  frequency : Nat
  percentage : ℚ
  avg_tpt : ℚ
  min_tpt : ℚ
  max_tpt : ℚ
  median_tpt : ℚ
deriving DecidableEq

/-- The dictionary appended for one variant: its activities, frequency,
percentage of cases (rounded to two decimals), and throughput-time
statistics over its cases' durations. -/
def mkVariantRow (totalCases : Nat) (cases : List (List String))
    (durs : List ℚ) (vc : List String × Nat) : TraceVariantRow :=
  let vd := variantDurations cases durs vc.1
  { activities := vc.1
    frequency := vc.2
    percentage := round2 ((vc.2 : ℚ) / (totalCases : ℚ) * 100)
    avg_tpt := if vd = [] then 0 else round2 (pyMean vd)
    min_tpt := if vd = [] then 0 else round2 (pyMin vd)
    max_tpt := if vd = [] then 0 else round2 (pyMax vd)
    median_tpt := if vd = [] then 0 else round2 (pyMedian vd) }

/-- The `trace_variants` list of `get_log_insights`: one row per variant,
sorted by frequency in descending order
(`trace_variants.sort(key=..., reverse=True)`, a stable sort). -/
def traceVariants (cases : List (List String)) (durs : List ℚ) :
    List TraceVariantRow :=
  pySort (fun a b => decide (b.frequency ≤ a.frequency))
    ((variantsOf cases).map (mkVariantRow cases.length cases durs))

theorem mem_addNew [DecidableEq α] {x a : α} {acc : List α} :
    x ∈ addNew acc a ↔ x ∈ acc ∨ x = a := by
  by_cases h : a ∈ acc
  · simp only [addNew, if_pos h]
    exact ⟨Or.inl, fun hx => hx.elim id fun e => e ▸ h⟩
  · simp [addNew, if_neg h]

theorem nodup_addNew [DecidableEq α] {acc : List α} (h : acc.Nodup)
    (a : α) : (addNew acc a).Nodup := by
  by_cases ha : a ∈ acc
  · simpa [addNew, if_pos ha] using h
  · simp [addNew, if_neg ha, List.nodup_append, h, ha]

theorem mem_foldl_addNew [DecidableEq α] {l : List α} :
    ∀ {acc : List α} {x : α}, x ∈ l.foldl addNew acc ↔ x ∈ acc ∨ x ∈ l := by
  induction l with
  | nil => simp
  | cons a as ih =>
    intro acc x
    rw [List.foldl_cons, ih, mem_addNew]
    simp [or_assoc]

theorem nodup_foldl_addNew [DecidableEq α] {l : List α} :
    ∀ {acc : List α}, acc.Nodup → (l.foldl addNew acc).Nodup := by
  induction l with
  | nil => exact fun h => h
  | cons a as ih =>
    intro acc h
    exact ih (nodup_addNew h a)

theorem mem_firstOccs [DecidableEq α] {l : List α} {x : α} :
    x ∈ firstOccs l ↔ x ∈ l := by
  rw [firstOccs, mem_foldl_addNew]
  simp

theorem nodup_firstOccs [DecidableEq α] (l : List α) :
    (firstOccs l).Nodup :=
  nodup_foldl_addNew List.nodup_nil

/-- The two `BEq (List String)` instances in scope count alike. -/
theorem count_decEq_eq (v : List String) (l : List (List String)) :
    List.count v l = @List.count _ instBEqOfDecidableEq v l := by
  induction l with
  | nil => rfl
  | cons a as ih =>
    rw [List.count_cons, @List.count_cons _ instBEqOfDecidableEq, ih]
    congr 1
    by_cases h : a = v <;> simp [h]

/-- The per-variant case counts sum to the number of cases. -/
theorem sum_count_firstOccs [DecidableEq α] (l : List α) :
    (((firstOccs l).map fun v => l.count v).sum) = l.length := by
  have h1 : (firstOccs l).toFinset = l.toFinset :=
    Finset.ext fun x => by simp [List.mem_toFinset, mem_firstOccs]
  rw [← List.sum_toFinset (fun v => l.count v) (nodup_firstOccs l), h1,
    List.sum_toFinset_count_eq_length]

/-! ## Claim theorems -/

/-- C1: the claim that the helper `footprint_to_matrix` of
`utils/helpers.py` and the nested copy inside `conformance_log_log` of
`api.py` compute the same function fails: the nested copy's `return` is
indented into the parallel-relation loop, so on the footprint with
activities `{a, b}`, sequence `{(a, b)}` and an empty parallel set the
helper returns the matrix dictionary while the `api.py` copy runs off the
end of the function and returns `None`. -/
theorem api_footprint_to_matrix_bug :
    footprint_to_matrix ⟨["a", "b"], [("a", "b")], []⟩ =
      { activities := ["a", "b"], matrix := [["", "->"], ["", ""]] } ∧
    api_footprint_to_matrix ⟨["a", "b"], [("a", "b")], []⟩ = none := by
  constructor
  · decide
  · decide

/-- C2: `count_footprint_differences` returns the cardinality of the
symmetric difference of the `'sequence'` sets plus that of the
`'parallel'` sets; it is symmetric in its arguments, and it returns `0`
exactly when the two footprints have identical sequence and parallel
sets. -/
theorem count_footprint_differences_spec (fp1 fp2 : Footprint) :
    count_footprint_differences fp1 fp2 =
      (symmDiff fp1.sequence.toFinset fp2.sequence.toFinset).card +
      (symmDiff fp1.parallel.toFinset fp2.parallel.toFinset).card ∧
    count_footprint_differences fp1 fp2 =
      count_footprint_differences fp2 fp1 ∧
    (count_footprint_differences fp1 fp2 = 0 ↔
      fp1.sequence.toFinset = fp2.sequence.toFinset ∧
      fp1.parallel.toFinset = fp2.parallel.toFinset) := by
  refine ⟨?_, ?_, ?_⟩
  · simp [count_footprint_differences, symmDiff_def, Finset.sup_eq_union]
  · simp only [count_footprint_differences]
    rw [Finset.union_comm (fp1.sequence.toFinset \ _),
      Finset.union_comm (fp1.parallel.toFinset \ _)]
  · constructor
    · intro h
      have h1 : ((fp1.sequence.toFinset \ fp2.sequence.toFinset) ∪
          (fp2.sequence.toFinset \ fp1.sequence.toFinset)).card = 0 ∧
          ((fp1.parallel.toFinset \ fp2.parallel.toFinset) ∪
          (fp2.parallel.toFinset \ fp1.parallel.toFinset)).card = 0 := by
        rw [count_footprint_differences] at h
        omega
      rcases h1 with ⟨hs, hp⟩
      rw [Finset.card_eq_zero, Finset.union_eq_empty,
        Finset.sdiff_eq_empty_iff_subset, Finset.sdiff_eq_empty_iff_subset]
        at hs hp
      exact ⟨Finset.Subset.antisymm hs.1 hs.2,
             Finset.Subset.antisymm hp.1 hp.2⟩
    · rintro ⟨h1, h2⟩
      simp [count_footprint_differences, h1, h2]

/-- C8: `footprint_to_matrix` returns the sorted activity list together
with an `n × n` matrix whose cell `[i][j]` is `'||'` when the pair of the
`i`-th and `j`-th activities is a parallel pair, else `'->'` when it is a
sequence pair, else `''` — so `'||'` wins when a pair is in both sets. -/
theorem footprint_to_matrix_spec (fp : Footprint) :
    (footprint_to_matrix fp).activities = sortedActivities fp ∧
    ((footprint_to_matrix fp).activities.Pairwise
      fun x y => pyStrLe x y = true) ∧
    (footprint_to_matrix fp).activities.Nodup ∧
    (∀ a, a ∈ (footprint_to_matrix fp).activities ↔ a ∈ fp.activities) ∧
    (footprint_to_matrix fp).matrix.length =
      (footprint_to_matrix fp).activities.length ∧
    (∀ row ∈ (footprint_to_matrix fp).matrix,
      row.length = (footprint_to_matrix fp).activities.length) ∧
    ∀ i j, i < (footprint_to_matrix fp).activities.length →
      j < (footprint_to_matrix fp).activities.length →
      ((footprint_to_matrix fp).matrix.getD i []).getD j "" =
        (if (((footprint_to_matrix fp).activities.getD i ""),
             ((footprint_to_matrix fp).activities.getD j ""))
              ∈ fp.parallel then "||"
         else if (((footprint_to_matrix fp).activities.getD i ""),
                  ((footprint_to_matrix fp).activities.getD j ""))
              ∈ fp.sequence then "->"
         else "") := by
  have hact : (footprint_to_matrix fp).activities = sortedActivities fp :=
    rfl
  refine ⟨hact, hact ▸ sortedActivities_sorted fp,
    hact ▸ sortedActivities_nodup fp,
    fun a => hact ▸ mem_sortedActivities,
    ?_, ?_, ?_⟩
  · show (matrixOf _ _).length = _
    simp [matrixOf, hact]
  · intro row hrow
    rcases List.mem_map.1 hrow with ⟨i, _, rfl⟩
    simp [hact]
  · intro i j hi hj
    rw [hact] at hi hj ⊢
    exact footprint_to_matrix_cell fp hi hj

/-- C9 counterexample: the claim that `footprint_conformance` always lies
in `[0, 1]` fails — on footprints over a single activity whose sequence
and parallel sets disagree on the pair `(a, a)` the difference count is
`2` against a single cell, giving `1 - 2/1 = -1 < 0`. -/
theorem footprint_conformance_negative :
    footprint_conformance ⟨["a"], [("a", "a")], []⟩
      ⟨["a"], [], [("a", "a")]⟩ < 0 := by
  have h1 : count_footprint_differences ⟨["a"], [("a", "a")], []⟩
      ⟨["a"], [], [("a", "a")]⟩ = 2 := by decide
  have h2 : (sortedActivities ⟨["a"], [("a", "a")], []⟩).length = 1 := by
    decide
  have h3 : (sortedActivities ⟨["a"], [], [("a", "a")]⟩).length = 1 := by
    decide
  simp only [footprint_conformance, h1, h2, h3]
  norm_num

/-- C9 (amended): on both `conformance_log_log` and
`conformance_model_model`, `footprint_conformance` equals
`1 - num_different_cells / max(n1, n2)^2` when there is at least one
activity and `0.0` when both activity sets are empty; it never exceeds
`1`, and it is nonnegative — i.e. lies in `[0, 1]` — exactly when the
difference count is at most the cell count (it can go negative). -/
theorem footprint_conformance_formula (fp1 fp2 : Footprint) :
    footprint_conformance fp1 fp2 ≤ 1 ∧
    (max (sortedActivities fp1).length (sortedActivities fp2).length = 0 →
      footprint_conformance fp1 fp2 = 0) ∧
    (0 < max (sortedActivities fp1).length (sortedActivities fp2).length →
      footprint_conformance fp1 fp2 =
        1 - (count_footprint_differences fp1 fp2 : ℚ) /
          ((max (sortedActivities fp1).length (sortedActivities fp2).length *
            max (sortedActivities fp1).length
              (sortedActivities fp2).length : ℕ) : ℚ) ∧
      (0 ≤ footprint_conformance fp1 fp2 ↔
        count_footprint_differences fp1 fp2 ≤
          max (sortedActivities fp1).length (sortedActivities fp2).length *
          max (sortedActivities fp1).length (sortedActivities fp2).length)) := by
  set n := max (sortedActivities fp1).length (sortedActivities fp2).length
    with hn
  set d := count_footprint_differences fp1 fp2 with hd
  by_cases hpos : 0 < n
  · have h : 0 < n * n := Nat.mul_pos hpos hpos
    have hfc : footprint_conformance fp1 fp2 =
        1 - (d : ℚ) / ((n * n : ℕ) : ℚ) := by
      rw [footprint_conformance, ← hn, ← hd, if_pos h]
    have hq : (0 : ℚ) < ((n * n : ℕ) : ℚ) := by exact_mod_cast h
    refine ⟨?_, fun h0 => absurd h0 (by omega), fun _ => ⟨hfc, ?_⟩⟩
    · rw [hfc]
      have : (0 : ℚ) ≤ (d : ℚ) / ((n * n : ℕ) : ℚ) := by positivity
      linarith
    · rw [hfc, sub_nonneg, div_le_one hq]
      exact ⟨fun hle => by exact_mod_cast hle, fun hle => by exact_mod_cast hle⟩
  · have hn0 : n = 0 := by omega
    have h : ¬ 0 < n * n := by
      rw [hn0]
      norm_num
    have hfc : footprint_conformance fp1 fp2 = 0 := by
      rw [footprint_conformance, ← hn, if_neg h]
    exact ⟨by rw [hfc]; norm_num, fun _ => hfc,
      fun hp => absurd hp (by omega)⟩

/-- C9 witness: the amended theorem applied at footprints with one
activity and none. -/
theorem footprint_conformance_formula_witness :
    footprint_conformance ⟨["a"], [], []⟩ ⟨[], [], []⟩ ≤ 1 ∧
    (0 ≤ footprint_conformance ⟨["a"], [], []⟩ ⟨[], [], []⟩ ↔
      count_footprint_differences ⟨["a"], [], []⟩ ⟨[], [], []⟩ ≤
        max (sortedActivities ⟨["a"], [], []⟩).length
            (sortedActivities ⟨[], [], []⟩).length *
        max (sortedActivities ⟨["a"], [], []⟩).length
            (sortedActivities ⟨[], [], []⟩).length) :=
  ⟨(footprint_conformance_formula _ _).1,
   ((footprint_conformance_formula _ _).2.2 (by decide)).2⟩

/-- C8 witness: the cell characterisation applied at a concrete
footprint and indices. -/
theorem footprint_to_matrix_spec_witness :
    ((footprint_to_matrix ⟨["b", "a"], [("a", "b")], [("b", "a")]⟩).matrix.getD
        0 []).getD 1 "" =
      (if (((footprint_to_matrix
              ⟨["b", "a"], [("a", "b")], [("b", "a")]⟩).activities.getD 0 ""),
           ((footprint_to_matrix
              ⟨["b", "a"], [("a", "b")], [("b", "a")]⟩).activities.getD 1 ""))
            ∈ [("b", "a")] then "||"
       else if (((footprint_to_matrix
              ⟨["b", "a"], [("a", "b")], [("b", "a")]⟩).activities.getD 0 ""),
           ((footprint_to_matrix
              ⟨["b", "a"], [("a", "b")], [("b", "a")]⟩).activities.getD 1 ""))
            ∈ [("a", "b")] then "->"
       else "") :=
  (footprint_to_matrix_spec ⟨["b", "a"], [("a", "b")], [("b", "a")]⟩).2.2.2.2.2.2
    0 1 (by decide) (by decide)

/-- The element read by an in-range `getD` is a member of the list. -/
theorem getD_default_mem {α} [Inhabited α] {l : List α} {i : Nat}
    (hi : i < l.length) : l.getD i default ∈ l := by
  rw [List.getD_eq_getElem?_getD, List.getElem?_eq_getElem hi]
  exact List.getElem_mem hi

/-- C3: on a valid index `delete_model` does remove exactly the indexed
entry, but it never produces the claimed success response: building the
success message reads `deleted_model['filename']` on an entry whose only
keys are `metadata` and `model_object`, so the `KeyError` lands in the
catch-all and the endpoint answers `status: "error"` — with the pop
already performed, contradicting both halves of the claim. -/
theorem delete_model_bug :
    (delete_model [{ metadata := [("filename", MVal.s "net.pnml"),
                                  ("uploaded_at", MVal.s "t0"),
                                  ("model_type", MVal.s "Petri Net")],
                     modelObject := 0 }] 0).1 = [] ∧
    (delete_model [{ metadata := [("filename", MVal.s "net.pnml"),
                                  ("uploaded_at", MVal.s "t0"),
                                  ("model_type", MVal.s "Petri Net")],
                     modelObject := 0 }] 0).2.lookup "status" =
      some (RVal.s "error") ∧
    (delete_model [{ metadata := [("filename", MVal.s "net.pnml"),
                                  ("uploaded_at", MVal.s "t0"),
                                  ("model_type", MVal.s "Petri Net")],
                     modelObject := 0 }] 0).2.lookup "message" =
      some (RVal.s "Error deleting model: filename") := by
  refine ⟨?_, ?_, ?_⟩ <;> decide

/-- C4: `delete_log` answers `status: "success"` (with a message naming
the deleted log's filename) exactly for indices `0 ≤ index < len(logs)`;
in that case the result is the list with that one entry removed, the
length drops by one and the relative order of the others is kept, and for
any out-of-range index it answers `status: "error"` and leaves the list
unchanged.  (Entries are as built by `upload_log`, whose metadata always
records a `filename` string.) -/
theorem delete_log_spec (logs : List LogEntry) (index : Int)
    (hmeta : ∀ e ∈ logs, ∃ s,
      e.metadata.lookup "filename" = some (MVal.s s)) :
    ((delete_log logs index).2.lookup "status" = some (RVal.s "success") ↔
      0 ≤ index ∧ index < (logs.length : Int)) ∧
    (∀ h : 0 ≤ index ∧ index < (logs.length : Int),
      (delete_log logs index).1 =
        logs.take index.toNat ++ logs.drop (index.toNat + 1) ∧
      (delete_log logs index).1.length + 1 = logs.length ∧
      ∃ s, (logs.get ⟨index.toNat, by omega⟩).metadata.lookup "filename" =
              some (MVal.s s) ∧
           (delete_log logs index).2.lookup "message" =
              some (RVal.s ("Successfully deleted log: " ++ s))) ∧
    (¬(0 ≤ index ∧ index < (logs.length : Int)) →
      (delete_log logs index).2.lookup "status" = some (RVal.s "error") ∧
      (delete_log logs index).1 = logs) := by
  by_cases h : 0 ≤ index ∧ index < (logs.length : Int)
  · have hi : index.toNat < logs.length := by omega
    obtain ⟨s, hs⟩ := hmeta (logs.getD index.toNat default)
      (getD_default_mem hi)
    simp only [delete_log, if_pos h, hs]
    refine ⟨iff_of_true (by simp [List.lookup]) h,
      fun _ => ⟨?_, ?_, s, ?_, ?_⟩, fun hc => absurd h hc⟩
    · exact List.eraseIdx_eq_take_drop_succ logs index.toNat
    · rw [List.length_eraseIdx]
      simp only [hi, if_pos]
      omega
    · rw [List.getD_eq_getElem?_getD, List.getElem?_eq_getElem hi] at hs
      rw [List.get_eq_getElem]
      exact hs
    · simp [List.lookup, mvalText]
  · simp only [delete_log, if_neg h]
    exact ⟨iff_of_false (by simp [List.lookup]) h,
      fun hc => absurd hc h, fun _ => ⟨by simp [List.lookup], trivial⟩⟩

/-- A one-entry log list for witnesses. -/
def logEntryEx : LogEntry :=
  { metadata := [("filename", MVal.s "log.xes")],
    logObject := { rows := [], columns := [], startEqTime := false } }

/-- C4 witness: deleting index 0 from a one-entry list. -/
theorem delete_log_spec_witness :
    (delete_log [logEntryEx] 0).1 = [] ∧
    (delete_log [logEntryEx] 0).2.lookup "status" =
      some (RVal.s "success") := by
  have hm : ∀ e ∈ [logEntryEx], ∃ s,
      e.metadata.lookup "filename" = some (MVal.s s) := by
    intro e he
    rcases List.mem_singleton.1 he with rfl
    exact ⟨"log.xes", rfl⟩
  have h := delete_log_spec [logEntryEx] 0 hm
  refine ⟨?_, h.1.mpr (by decide)⟩
  rw [(h.2.1 (by decide)).1]
  rfl

/-- C5 counterexample: the `/api/logs` response of `get_logs` carries a
`status` key but no `message` key at all, so not every endpoint response
carries the full status/message envelope. -/
theorem get_logs_no_message :
    (get_logs []).lookup "message" = none ∧
    (get_logs []).lookup "status" = some (RVal.s "success") := by
  exact ⟨rfl, rfl⟩

/-- C5 (amended): every embedded endpoint response carries both a
`status` key and a `message` key — both `upload_log` copies, both delete
endpoints, the four `discover_*` endpoints and `conformance_log_model`
included — and the invalid-index error responses are exactly the
`{"message": ..., "status": "error"}` envelope; the sole exception are
the list endpoints `/api/logs`, `/api/models` and `/api/ocels`, which
answer `{items, count, status}` with no `message` key. -/
theorem response_envelope (logs : List LogEntry) (models : List ModelEntry)
    (ocels : List OcelEntry) (index : Int) (filename now : String)
    (log : EventLog) (tf tp : ℚ) (align : Option (ℚ × ℚ))
    (lm mm : Metadata) (ts1 ts2 ad td : RVal) (np nt na : Nat)
    (svg ms ls : String) (fp1 fp2 : Footprint) :
    (get_logs logs).lookup "status" = some (RVal.s "success") ∧
    (get_logs logs).lookup "message" = none ∧
    (get_models models).lookup "status" = some (RVal.s "success") ∧
    (get_models models).lookup "message" = none ∧
    (get_ocels ocels).lookup "status" = some (RVal.s "success") ∧
    (get_ocels ocels).lookup "message" = none ∧
    ((delete_log logs index).2.lookup "status").isSome = true ∧
    ((delete_log logs index).2.lookup "message").isSome = true ∧
    ((delete_model models index).2.lookup "status").isSome = true ∧
    ((delete_model models index).2.lookup "message").isSome = true ∧
    ((upload_log logs filename now log).2.lookup "status").isSome = true ∧
    ((upload_log logs filename now log).2.lookup "message").isSome = true ∧
    (¬(0 ≤ index ∧ index < (logs.length : Int)) →
      ∃ m, (delete_log logs index).2 =
        [("message", RVal.s m), ("status", RVal.s "error")]) ∧
    (¬(0 ≤ index ∧ index < (models.length : Int)) →
      ∃ m, (delete_model models index).2 =
        [("message", RVal.s m), ("status", RVal.s "error")]) ∧
    (api_upload_log logs filename now log).2.lookup "status" =
      some (RVal.s "success") ∧
    (api_upload_log logs filename now log).2.lookup "message" =
      some (RVal.s ("Event log successfully uploaded and processed: "
        ++ filename)) ∧
    (discover_alpha_response svg
        (calculate_conformance_metrics tf tp align lm ts1 ts2 np nt na)).lookup
      "status" = some (RVal.s "success") ∧
    (discover_alpha_response svg
        (calculate_conformance_metrics tf tp align lm ts1 ts2 np nt na)).lookup
      "message" = some (RVal.s "Alpha algorithm discovery completed") ∧
    (discover_ilp_response svg
        (calculate_conformance_metrics tf tp align lm ts1 ts2 np nt na)).lookup
      "status" = some (RVal.s "success") ∧
    (discover_ilp_response svg
        (calculate_conformance_metrics tf tp align lm ts1 ts2 np nt na)).lookup
      "message" = some (RVal.s "ILP algorithm discovery completed") ∧
    (discover_heuristics_response svg
        (calculate_conformance_metrics tf tp align lm ts1 ts2 np nt na)).lookup
      "status" = some (RVal.s "success") ∧
    (discover_heuristics_response svg
        (calculate_conformance_metrics tf tp align lm ts1 ts2 np nt na)).lookup
      "message" =
        some (RVal.s "Heuristics algorithm discovery completed") ∧
    (discover_inductive_response svg
        (calculate_conformance_metrics tf tp align lm ts1 ts2 np nt na)).lookup
      "status" = some (RVal.s "success") ∧
    (discover_inductive_response svg
        (calculate_conformance_metrics tf tp align lm ts1 ts2 np nt na)).lookup
      "message" =
        some (RVal.s "Inductive algorithm discovery completed") ∧
    (conformance_log_model_response log lm mm np nt na fp1 fp2 tf tp align
        ad td ms ls).lookup "status" = some (RVal.s "success") ∧
    (conformance_log_model_response log lm mm np nt na fp1 fp2 tf tp align
        ad td ms ls).lookup "message" =
      some (RVal.s "Log-Model conformance checking completed") := by
  refine ⟨rfl, rfl, rfl, rfl, rfl, rfl, ?_, ?_, ?_, ?_, rfl, rfl, ?_, ?_,
    rfl, rfl, rfl, rfl, rfl, rfl, rfl, rfl, rfl, rfl, rfl, rfl⟩
  · by_cases h : 0 ≤ index ∧ index < (logs.length : Int)
    · simp only [delete_log, if_pos h]
      rcases (logs.getD index.toNat default).metadata.lookup "filename"
        with _ | v <;> simp [List.lookup]
    · simp [delete_log, if_neg h, List.lookup]
  · by_cases h : 0 ≤ index ∧ index < (logs.length : Int)
    · simp only [delete_log, if_pos h]
      rcases (logs.getD index.toNat default).metadata.lookup "filename"
        with _ | v <;> simp [List.lookup]
    · simp [delete_log, if_neg h, List.lookup]
  · by_cases h : 0 ≤ index ∧ index < (models.length : Int)
    · simp only [delete_model, if_pos h]
      rcases (models.getD index.toNat default).dictGet "filename"
        with _ | v <;> simp [List.lookup]
    · simp [delete_model, if_neg h, List.lookup]
  · by_cases h : 0 ≤ index ∧ index < (models.length : Int)
    · simp only [delete_model, if_pos h]
      rcases (models.getD index.toNat default).dictGet "filename"
        with _ | v <;> simp [List.lookup]
    · simp [delete_model, if_neg h, List.lookup]
  · intro h
    simp only [delete_log, if_neg h]
    exact ⟨_, rfl⟩
  · intro h
    simp only [delete_model, if_neg h]
    exact ⟨_, rfl⟩

/-- C5 witness: the envelope facts at an out-of-range index. -/
theorem response_envelope_witness :
    (get_logs ([] : List LogEntry)).lookup "message" = none ∧
    ∃ m, (delete_log ([] : List LogEntry) (-1)).2 =
      [("message", RVal.s m), ("status", RVal.s "error")] :=
  ⟨(response_envelope [] [] [] (-1) "f" "t" ⟨[], [], false⟩ 0 0 none [] []
      (RVal.payload 0) (RVal.payload 0) (RVal.payload 0) (RVal.payload 0)
      0 0 0 "s" "m" "l" ⟨[], [], []⟩ ⟨[], [], []⟩).2.1,
   (response_envelope [] [] [] (-1) "f" "t" ⟨[], [], false⟩ 0 0 none [] []
      (RVal.payload 0) (RVal.payload 0) (RVal.payload 0) (RVal.payload 0)
      0 0 0 "s" "m" "l" ⟨[], [], []⟩
      ⟨[], [], []⟩).2.2.2.2.2.2.2.2.2.2.2.2.1 (by decide)⟩

/-- C7 counterexample: the `upload_log` copy in `api.py` appends an entry
whose metadata has no `original_columns` key at all, against the claim
that the metadata of the uploaded log always records its original column
list. -/
theorem api_upload_log_no_columns :
    (api_upload_log [] "log.xes" "t0"
        ⟨[⟨"c1", "a"⟩],
         ["case:concept:name", "concept:name", "time:timestamp"],
         false⟩).1.map
      (fun e => e.metadata.lookup "original_columns") = [none] := by
  decide

/-- C7 (amended): a successful `upload_log` request appends exactly one
entry at the end of the logs list (leaving every existing entry in place)
whose metadata records the filename, the upload time and the
event/case/activity counts; the `routers/data.py` version additionally
records the original column list, while the `api.py` version builds no
`original_columns` field. -/
theorem upload_log_spec (logs : List LogEntry) (filename now : String)
    (log : EventLog) :
    (upload_log logs filename now log).1 =
      logs ++ [{ metadata := uploadLogMetadata filename now log,
                 logObject := log }] ∧
    (upload_log logs filename now log).1.length = logs.length + 1 ∧
    (∀ i, i < logs.length →
      (upload_log logs filename now log).1[i]? = logs[i]?) ∧
    (uploadLogMetadata filename now log).lookup "filename" =
      some (MVal.s filename) ∧
    (uploadLogMetadata filename now log).lookup "uploaded_at" =
      some (MVal.s now) ∧
    (uploadLogMetadata filename now log).lookup "num_events" =
      some (MVal.n (numEvents log)) ∧
    (uploadLogMetadata filename now log).lookup "num_cases" =
      some (MVal.n (numCases log)) ∧
    (uploadLogMetadata filename now log).lookup "num_activities" =
      some (MVal.n (numActivities log)) ∧
    (uploadLogMetadata filename now log).lookup "original_columns" =
      some (MVal.strList (originalColumns log)) ∧
    (api_upload_log logs filename now log).1 =
      logs ++ [{ metadata := apiUploadLogMetadata filename now log,
                 logObject := log }] ∧
    (apiUploadLogMetadata filename now log).lookup "filename" =
      some (MVal.s filename) ∧
    (apiUploadLogMetadata filename now log).lookup "original_columns" =
      none := by
  refine ⟨rfl, by simp [upload_log], ?_, rfl, rfl, rfl, rfl, rfl, rfl, rfl,
    rfl, rfl⟩
  intro i hi
  exact List.getElem?_append_left hi

/-- C7 witness: uploading into an empty list keeps (vacuously) all prior
entries and yields a one-entry list. -/
theorem upload_log_spec_witness :
    (upload_log [] "log.xes" "t0" ⟨[⟨"c1", "a"⟩], ["concept:name"], false⟩).1.length
      = 1 ∧
    (uploadLogMetadata "log.xes" "t0"
      ⟨[⟨"c1", "a"⟩], ["concept:name"], false⟩).lookup "filename" =
        some (MVal.s "log.xes") :=
  ⟨(upload_log_spec [] "log.xes" "t0" _).2.1,
   (upload_log_spec [] "log.xes" "t0"
      ⟨[⟨"c1", "a"⟩], ["concept:name"], false⟩).2.2.2.1⟩

/-- C6: in the `discover_*` endpoints (the shared
`calculate_conformance_metrics` of `routers/discovery.py`, duplicated
inline in `api.py`) and in `conformance_log_model`, when the alignment
computation raises (`align = none`) the response still reports
`status: "success"`, its `align_fitness`/`align_precision`/`align_f1`
fields carry the string sentinel `"PN not sound"`, and
`mean_fitness`/`mean_precision` fall back to the token-based-replay
values. -/
theorem alignment_fallback (tf tp : ℚ) (lm mm : Metadata)
    (ts1 ts2 ad td : RVal) (np nt na : Nat) (svg ms ls : String)
    (log : EventLog) (fp1 fp2 : Footprint) :
    (calculate_conformance_metrics tf tp none lm ts1 ts2 np nt na).lookup
        "align_fitness" = some (RVal.s "PN not sound") ∧
    (calculate_conformance_metrics tf tp none lm ts1 ts2 np nt na).lookup
        "align_precision" = some (RVal.s "PN not sound") ∧
    (calculate_conformance_metrics tf tp none lm ts1 ts2 np nt na).lookup
        "align_f1" = some (RVal.s "PN not sound") ∧
    (calculate_conformance_metrics tf tp none lm ts1 ts2 np nt na).lookup
        "mean_fitness" = some (RVal.q tf) ∧
    (calculate_conformance_metrics tf tp none lm ts1 ts2 np nt na).lookup
        "mean_precision" = some (RVal.q tp) ∧
    (discover_alpha_response svg
        (calculate_conformance_metrics tf tp none lm ts1 ts2 np nt na)).lookup
        "status" = some (RVal.s "success") ∧
    (discover_alpha_response svg
        (calculate_conformance_metrics tf tp none lm ts1 ts2 np nt na)).lookup
        "align_fitness" = some (RVal.s "PN not sound") ∧
    (discover_ilp_response svg
        (calculate_conformance_metrics tf tp none lm ts1 ts2 np nt na)).lookup
        "status" = some (RVal.s "success") ∧
    (discover_heuristics_response svg
        (calculate_conformance_metrics tf tp none lm ts1 ts2 np nt na)).lookup
        "status" = some (RVal.s "success") ∧
    (discover_inductive_response svg
        (calculate_conformance_metrics tf tp none lm ts1 ts2 np nt na)).lookup
        "status" = some (RVal.s "success") ∧
    (conformance_log_model_response log lm mm np nt na fp1 fp2 tf tp none
        ad td ms ls).lookup "status" = some (RVal.s "success") ∧
    (conformance_log_model_response log lm mm np nt na fp1 fp2 tf tp none
        ad td ms ls).lookup "align_fitness" = some (RVal.s "PN not sound") ∧
    (conformance_log_model_response log lm mm np nt na fp1 fp2 tf tp none
        ad td ms ls).lookup "align_precision" =
      some (RVal.s "PN not sound") ∧
    (conformance_log_model_response log lm mm np nt na fp1 fp2 tf tp none
        ad td ms ls).lookup "align_f1" = some (RVal.s "PN not sound") ∧
    (conformance_log_model_response log lm mm np nt na fp1 fp2 tf tp none
        ad td ms ls).lookup "mean_fitness" = some (RVal.q tf) ∧
    (conformance_log_model_response log lm mm np nt na fp1 fp2 tf tp none
        ad td ms ls).lookup "mean_precision" = some (RVal.q tp) :=
  ⟨rfl, rfl, rfl, rfl, rfl, rfl, rfl, rfl, rfl, rfl, rfl, rfl, rfl, rfl,
   rfl, rfl⟩

/-- C10: the `trace_variants` list of `get_log_insights` is sorted by
frequency in non-increasing order, its length is the reported
`num_trace_variants`, the frequencies over all variants sum to the number
of cases, and every row's `percentage` is its frequency over the case
count times 100, rounded to two decimals. -/
theorem trace_variants_spec (cases : List (List String)) (durs : List ℚ) :
    (traceVariants cases durs).Pairwise
      (fun a b => b.frequency ≤ a.frequency) ∧
    (traceVariants cases durs).length = numTraceVariants cases ∧
    ((traceVariants cases durs).map (fun r => r.frequency)).sum =
      cases.length ∧
    ∀ r ∈ traceVariants cases durs,
      r.percentage =
        round2 ((r.frequency : ℚ) / (cases.length : ℚ) * 100) := by
  refine ⟨?_, ?_, ?_, ?_⟩
  · have h := pySort_pairwise
      (fun a b => decide (b.frequency ≤ a.frequency))
      (fun x y z hxy hyz => by
        simp only [decide_eq_true_eq] at hxy hyz ⊢
        omega)
      (fun x y => by
        rcases Nat.le_total y.frequency x.frequency with h | h
        · exact Or.inl (by simpa using h)
        · exact Or.inr (by simpa using h))
      ((variantsOf cases).map (mkVariantRow cases.length cases durs))
    exact h.imp fun hab => by simpa using hab
  · rw [traceVariants, length_pySort, List.length_map, numTraceVariants]
  · have hperm := pySort_perm
      (fun a b => decide (b.frequency ≤ a.frequency))
      ((variantsOf cases).map (mkVariantRow cases.length cases durs))
    rw [traceVariants,
      List.Perm.sum_eq (hperm.map (fun r => r.frequency)),
      List.map_map, variantsOf, List.map_map]
    have hmap : List.map
        (((fun r => r.frequency) ∘ mkVariantRow cases.length cases durs) ∘
          fun v => (v, List.count v cases)) (firstOccs cases) =
        List.map (fun v => @List.count _ instBEqOfDecidableEq v cases)
          (firstOccs cases) :=
      List.map_congr_left fun v _ => count_decEq_eq v cases
    rw [hmap]
    exact sum_count_firstOccs cases
  · intro r hr
    rw [traceVariants, mem_pySort] at hr
    rcases List.mem_map.1 hr with ⟨vc, hvc, rfl⟩
    rfl

/-- C10 witness: the properties on the log with cases
`[a], [a], [b]`. -/
theorem trace_variants_spec_witness :
    ((traceVariants [["a"], ["a"], ["b"]] [1, 2, 3]).map
        (fun r => r.frequency)).sum = 3 ∧
    (traceVariants [["a"], ["a"], ["b"]] [1, 2, 3]).length = 2 := by
  constructor
  · exact (trace_variants_spec [["a"], ["a"], ["b"]] [1, 2, 3]).2.2.1
  · rw [(trace_variants_spec [["a"], ["a"], ["b"]] [1, 2, 3]).2.1]
    decide

end Oasis
